import Mathlib

/-!
Verification of the `seisbench_picking` repository core
(`seisbench_picking/core/{utils,waveforms,picking,picking_interfaces,main}.py`).

The Python code is shallowly embedded:
* timestamps are microseconds since the proleptic-Gregorian epoch 0001-01-01
  (`datetime.datetime` semantics at microsecond resolution);
* Python exceptions are an explicit `PyExc` type and fallible code returns
  `Except PyExc _`;
* pandas CSV files are headers plus rows of string cells, with `to_csv`
  writing the integer index as a leading unnamed column and `read_csv`
  naming that column `Unnamed: 0`;
* the external backends (obspy SDS client query, `obspy.read` glob read,
  `Stream.merge`, SeisBench model loading, `classify`) are parameters of the
  embedded functions, matching the spec's external-interface boundary.
-/

set_option maxHeartbeats 1000000
set_option linter.unusedVariables false

namespace SeisbenchPicking

/-- Python exception values (constructor = exception class, payload = message). -/
inductive PyExc where
  | valueError (msg : String)
  | fileNotFoundError (msg : String)
  | ioError (msg : String)
  | keyError (msg : String)
  | other (msg : String)
  deriving Repr, DecidableEq

instance instDecEqExcept {ε α : Type _} [DecidableEq ε] [DecidableEq α] :
    DecidableEq (Except ε α) := fun
  | .ok a, .ok b =>
      if h : a = b then isTrue (by rw [h])
      else isFalse (by intro hc; cases hc; exact h rfl)
  | .ok _, .error _ => isFalse (by intro h; cases h)
  | .error _, .ok _ => isFalse (by intro h; cases h)
  | .error e, .error f =>
      if h : e = f then isTrue (by rw [h])
      else isFalse (by intro hc; cases hc; exact h rfl)

/-! ## Calendar model (`datetime.datetime` / `obspy.UTCDateTime` semantics)

Day indices count days since 0001-01-01 (day index 0).  `daysBeforeYear y` is
the day index of January 1st of year `y` in the proleptic Gregorian calendar,
`toDate` converts a day index to the `(year, julday)` pair that
`UTCDateTime.year` / `UTCDateTime.julday` expose. -/

/-- Microseconds per day. -/
def usPerDay : ℕ := 86400000000

theorem usPerDay_pos : 0 < usPerDay := by decide

/-- Number of proleptic-Gregorian leap years among years `1 .. a`. -/
def leapsBefore (a : ℕ) : ℕ := a / 4 - a / 100 + a / 400

/-- Day index (days since 0001-01-01) of January 1st of year `y` (`y ≥ 1`). -/
def daysBeforeYear (y : ℕ) : ℕ := 365 * (y - 1) + leapsBefore (y - 1)

/-- Whether year `y` is a proleptic-Gregorian leap year. -/
def isLeapYear (y : ℕ) : Bool := (y % 4 == 0 && y % 100 != 0) || y % 400 == 0

/-- Number of days in year `y`. -/
def daysInYear (y : ℕ) : ℕ := if isLeapYear y then 366 else 365

theorem isLeapYear_iff (y : ℕ) :
    isLeapYear y = true ↔ ((4 ∣ y ∧ ¬ 100 ∣ y) ∨ 400 ∣ y) := by
  unfold isLeapYear
  simp [Nat.dvd_iff_mod_eq_zero]

theorem leapsBefore_succ (a : ℕ) :
    leapsBefore (a + 1) = leapsBefore a + (if isLeapYear (a + 1) then 1 else 0) := by
  unfold leapsBefore
  rw [Nat.succ_div a 4, Nat.succ_div a 100, Nat.succ_div a 400]
  split_ifs <;> simp only [isLeapYear_iff] at * <;> omega

theorem daysBeforeYear_succ (y : ℕ) (hy : 1 ≤ y) :
    daysBeforeYear (y + 1) = daysBeforeYear y + daysInYear y := by
  unfold daysBeforeYear daysInYear
  obtain ⟨a, rfl⟩ : ∃ a, y = a + 1 := ⟨y - 1, by omega⟩
  have h := leapsBefore_succ a
  simp only [Nat.add_sub_cancel]
  rw [h]
  split <;> omega

theorem daysBeforeYear_le_succ (y : ℕ) (hy : 1 ≤ y) :
    daysBeforeYear y + 365 ≤ daysBeforeYear (y + 1) := by
  rw [daysBeforeYear_succ y hy]
  unfold daysInYear
  split <;> omega

theorem daysBeforeYear_mono {y y' : ℕ} (hy : 1 ≤ y) (h : y ≤ y') :
    daysBeforeYear y ≤ daysBeforeYear y' := by
  induction y' with
  | zero => omega
  | succ n ih =>
    rcases Nat.lt_or_ge y (n + 1) with hlt | hge
    · have h1 : 1 ≤ n := by omega
      have ha : daysBeforeYear y ≤ daysBeforeYear n := ih (by omega)
      have hb := daysBeforeYear_le_succ n h1
      omega
    · have heq : y = n + 1 := by omega
      subst heq
      exact le_rfl

theorem daysBeforeYear_lower (y : ℕ) : 365 * (y - 1) ≤ daysBeforeYear y := by
  unfold daysBeforeYear; omega

/-- Search loop computing the year containing a given day index:
starting from year `y` with `daysBeforeYear y ≤ d`, advance while the next
year also starts at or before `d`. -/
def yearOfDayGo : ℕ → ℕ → ℕ → ℕ
  | 0, y, _ => y
  | fuel + 1, y, d => if daysBeforeYear (y + 1) ≤ d then yearOfDayGo fuel (y + 1) d else y

/-- The (1-based) year containing day index `d`. -/
def yearOfDay (d : ℕ) : ℕ := yearOfDayGo (d + 1) 1 d

theorem yearOfDayGo_spec (fuel : ℕ) : ∀ y d, 1 ≤ y → daysBeforeYear y ≤ d →
    d < daysBeforeYear (y + fuel + 1) →
    1 ≤ yearOfDayGo fuel y d ∧
      daysBeforeYear (yearOfDayGo fuel y d) ≤ d ∧
      d < daysBeforeYear (yearOfDayGo fuel y d + 1) := by
  induction fuel with
  | zero =>
    intro y d hy hlo hhi
    exact ⟨hy, hlo, by simpa using hhi⟩
  | succ n ih =>
    intro y d hy hlo hhi
    unfold yearOfDayGo
    by_cases h : daysBeforeYear (y + 1) ≤ d
    · simp only [h, if_true]
      exact ih (y + 1) d (by omega) h (by
        have : y + 1 + n + 1 = y + (n + 1) + 1 := by ring
        rwa [this])
    · simp only [h, if_false]
      exact ⟨hy, hlo, by omega⟩

theorem yearOfDay_spec (d : ℕ) :
    1 ≤ yearOfDay d ∧ daysBeforeYear (yearOfDay d) ≤ d ∧
      d < daysBeforeYear (yearOfDay d + 1) := by
  unfold yearOfDay
  refine yearOfDayGo_spec (d + 1) 1 d le_rfl (by simp [daysBeforeYear, leapsBefore]) ?_
  have h := daysBeforeYear_lower (1 + (d + 1) + 1)
  omega

theorem yearOfDay_unique {d y : ℕ} (hy : 1 ≤ y)
    (hlo : daysBeforeYear y ≤ d) (hhi : d < daysBeforeYear (y + 1)) :
    yearOfDay d = y := by
  obtain ⟨h1, h2, h3⟩ := yearOfDay_spec d
  by_contra hne
  rcases Nat.lt_or_ge (yearOfDay d) y with hlt | hge
  · have : daysBeforeYear (yearOfDay d + 1) ≤ daysBeforeYear y :=
      daysBeforeYear_mono (by omega) (by omega)
    omega
  · have hgt : y < yearOfDay d := by omega
    have : daysBeforeYear (y + 1) ≤ daysBeforeYear (yearOfDay d) :=
      daysBeforeYear_mono (by omega) (by omega)
    omega

/-- `(year, julday)` of a day index, as exposed by `UTCDateTime.year` and
`UTCDateTime.julday`. -/
def toDate (d : ℕ) : ℕ × ℕ := (yearOfDay d, d - daysBeforeYear (yearOfDay d) + 1)

/-- Day index of `(year, julday)` (as computed by
`datetime.datetime(year, 1, 1) + timedelta(days=julday - 1)`). -/
def fromDate (p : ℕ × ℕ) : ℕ := daysBeforeYear p.1 + (p.2 - 1)

theorem fromDate_toDate (d : ℕ) : fromDate (toDate d) = d := by
  obtain ⟨h1, h2, h3⟩ := yearOfDay_spec d
  unfold fromDate toDate
  simp only
  omega

theorem toDate_injective : Function.Injective toDate :=
  Function.LeftInverse.injective fromDate_toDate

theorem toDate_fromDate {y j : ℕ} (hy : 1 ≤ y) (hj1 : 1 ≤ j) (hj2 : j ≤ daysInYear y) :
    toDate (fromDate (y, j)) = (y, j) := by
  have hstep := daysBeforeYear_succ y hy
  have hfd : fromDate (y, j) = daysBeforeYear y + (j - 1) := rfl
  have hyd : yearOfDay (fromDate (y, j)) = y := by
    apply yearOfDay_unique hy <;> rw [hfd] <;> omega
  unfold toDate
  rw [hyd, hfd, Prod.mk.injEq]
  exact ⟨rfl, by omega⟩

/-! ## `utils.date_list`

The Python loop (`utils.py`): starting from `start_date`, while
`date <= end_date`, normalize `date` to midnight
(`datetime(date.year, date.month, date.day)`), append
`(UTCDateTime(date).year, UTCDateTime(date).julday)` and advance by one day.
Timestamps are microseconds since 0001-01-01; normalizing a timestamp to
midnight is flooring to a multiple of `usPerDay`. -/

/-- Loop body of `date_list`: `date` is the running timestamp, `endT` the end
timestamp. -/
def dateListLoop (date endT : ℕ) : List (ℕ × ℕ) :=
  if date ≤ endT then
    toDate (date / usPerDay) :: dateListLoop (date / usPerDay * usPerDay + usPerDay) endT
  else []
  termination_by endT + 1 - date
  decreasing_by
    have h1 : date / usPerDay * usPerDay ≤ date := Nat.div_mul_le_self date usPerDay
    have h2 : date < date / usPerDay * usPerDay + usPerDay := Nat.lt_div_mul_add usPerDay_pos
    omega

/-- `utils.date_list`, on microsecond timestamps. -/
def date_list (start_date end_date : ℕ) : List (ℕ × ℕ) :=
  dateListLoop start_date end_date

theorem dateListLoop_closed_form :
    ∀ (n date endT : ℕ), date ≤ endT → endT / usPerDay - date / usPerDay = n →
      dateListLoop date endT =
        (List.range (endT / usPerDay + 1 - date / usPerDay)).map
          (fun k => toDate (date / usPerDay + k)) := by
  intro n
  induction n with
  | zero =>
    intro date endT hle hn
    rw [dateListLoop, if_pos hle]
    have hdiv : date / usPerDay ≤ endT / usPerDay := Nat.div_le_div_right hle
    have heq : endT / usPerDay = date / usPerDay := by omega
    have hnext : ¬ (date / usPerDay * usPerDay + usPerDay ≤ endT) := by
      intro hc
      have : (date / usPerDay * usPerDay + usPerDay) / usPerDay ≤ endT / usPerDay :=
        Nat.div_le_div_right hc
      rw [Nat.add_div_right _ usPerDay_pos, Nat.mul_div_cancel _ usPerDay_pos] at this
      omega
    rw [dateListLoop, if_neg hnext, heq]
    have hone : date / usPerDay + 1 - date / usPerDay = 1 := by omega
    have hr1 : List.range 1 = [0] := rfl
    rw [hone, hr1]
    simp
  | succ m ih =>
    intro date endT hle hn
    rw [dateListLoop, if_pos hle]
    have hdiv : date / usPerDay < endT / usPerDay := by omega
    set next := date / usPerDay * usPerDay + usPerDay with hnext_def
    have hnext_div : next / usPerDay = date / usPerDay + 1 := by
      rw [hnext_def, Nat.add_div_right _ usPerDay_pos, Nat.mul_div_cancel _ usPerDay_pos]
    have hnext_le : next ≤ endT := by
      have : next = (date / usPerDay + 1) * usPerDay := by rw [hnext_def]; ring
      rw [this]
      calc (date / usPerDay + 1) * usPerDay ≤ endT / usPerDay * usPerDay :=
            Nat.mul_le_mul_right _ (by omega)
        _ ≤ endT := Nat.div_mul_le_self endT usPerDay
    rw [ih next endT hnext_le (by omega)]
    rw [hnext_div]
    have hrange : endT / usPerDay + 1 - date / usPerDay =
        (endT / usPerDay + 1 - (date / usPerDay + 1)) + 1 := by omega
    rw [hrange, List.range_succ_eq_map]
    simp only [List.map_cons, List.map_map, Nat.add_zero]
    congr 1
    apply List.map_congr_left
    intro k _
    simp only [Function.comp_apply]
    congr 1
    omega

/-- Closed form of `date_list` for `start <= end`: the entries are exactly the
`(year, julday)` dates of the consecutive day indices from the start date's
day through the end date's day. -/
theorem date_list_eq (s e : ℕ) (h : s ≤ e) :
    date_list s e =
      (List.range (e / usPerDay + 1 - s / usPerDay)).map
        (fun k => toDate (s / usPerDay + k)) :=
  dateListLoop_closed_form (e / usPerDay - s / usPerDay) s e h rfl

/-! ## `waveforms.start_and_endtime` -/

/-- `waveforms.start_and_endtime`: resolve the day window of a
`(year, julday)` work unit, letting a global start/end time that falls on that
calendar day replace the full-day bound.  The code tests
`starttime.year == date[0] and starttime.julday == date[1]`. -/
def start_and_endtime (date : ℕ × ℕ) (starttime endtime : Option ℕ) : ℕ × ℕ :=
  let date_from_doy := fromDate date * usPerDay
  let starttime_stream :=
    match starttime with
    | some t =>
        if (toDate (t / usPerDay)).1 = date.1 ∧ (toDate (t / usPerDay)).2 = date.2 then t
        else date_from_doy
    | none => date_from_doy
  let endtime_stream :=
    match endtime with
    | some t =>
        if (toDate (t / usPerDay)).1 = date.1 ∧ (toDate (t / usPerDay)).2 = date.2 then t
        else date_from_doy + usPerDay - 1
    | none => date_from_doy + usPerDay - 1
  (starttime_stream, endtime_stream)

/-- The code's `(year, julday)` equality test holds exactly when the timestamp
lies inside the day `[day_start, day_start + 1 day)`. -/
theorem inDay_iff {y j : ℕ} (hy : 1 ≤ y) (hj1 : 1 ≤ j) (hj2 : j ≤ daysInYear y)
    (t : ℕ) :
    ((toDate (t / usPerDay)).1 = y ∧ (toDate (t / usPerDay)).2 = j) ↔
      (fromDate (y, j) * usPerDay ≤ t ∧ t < fromDate (y, j) * usPerDay + usPerDay) := by
  have hd : t / usPerDay = fromDate (y, j) ↔
      (fromDate (y, j) * usPerDay ≤ t ∧ t < fromDate (y, j) * usPerDay + usPerDay) := by
    simp only [usPerDay]
    omega
  constructor
  · rintro ⟨h1, h2⟩
    have hpair : toDate (t / usPerDay) = (y, j) := by
      rw [← h1, ← h2]
    have := congrArg fromDate hpair
    rw [fromDate_toDate] at this
    exact hd.mp this
  · intro hb
    have hq : t / usPerDay = fromDate (y, j) := hd.mpr hb
    rw [hq, toDate_fromDate hy hj1 hj2]
    exact ⟨rfl, rfl⟩

/-! ## `waveforms.get_waveforms_client` / `get_waveforms_sds_path` / `get_waveforms`

Traces are opaque values (strings); a stream is a list of traces.  The
external obspy calls are parameters: `queryResult` is the outcome of
`client.get_waveforms(...)`, `globRead` the outcome of
`obspy.read(pathname, ...)`, and `merge` models `Stream.merge(fill_value=0)`
(a total in-place transformation of the stream). -/

/-- A seismic trace (opaque). -/
abbrev Trace := String

/-- An obspy stream: a list of traces. -/
abbrev Stream' := List Trace

/-- `waveforms.get_waveforms_client`: the `try` block catches `ValueError`
only, returning an empty stream; any other exception propagates.  On success
the stream is merged with zero fill. -/
def get_waveforms_client (queryResult : Except PyExc Stream')
    (merge : Stream' → Stream') : Except PyExc Stream' :=
  match queryResult with
  | .error (.valueError _) => .ok []
  | .error e => .error e
  | .ok stream => .ok (merge stream)

/-- `waveforms.get_waveforms_sds_path`: raises `IOError` when the SDS root
directory does not exist (before the `try` block); the `try` block catches
every exception from the glob read / merge and returns an empty stream. -/
def get_waveforms_sds_path (sds_path : String) (isdir : Bool)
    (globRead : Except PyExc Stream') (merge : Stream' → Stream') :
    Except PyExc Stream' :=
  if !isdir then
    .error (.ioError ("Pathname " ++ sds_path ++ " to read waveform data does not exist."))
  else
    match globRead with
    | .ok stream => .ok (merge stream)
    | .error _ => .ok []

/-- `waveforms.get_waveforms`: try the SDS client backend; if it yields zero
traces, fall back to the path-pattern backend (a warning on a still-empty
stream is a side effect not modelled). -/
def get_waveforms (queryResult : Except PyExc Stream') (sds_path : String)
    (isdir : Bool) (globRead : Except PyExc Stream') (merge : Stream' → Stream') :
    Except PyExc Stream' :=
  match get_waveforms_client queryResult merge with
  | .error e => .error e
  | .ok stream =>
      if stream.length = 0 then get_waveforms_sds_path sds_path isdir globRead merge
      else .ok stream

/-! ## `utils.check_parameters` and the startup flow of `main.main` -/

/-- The parameter-file fields and filesystem facts that
`utils.check_parameters` consults.  `sdsIsDir` models
`os.path.isdir(parameters["sds_path"])`, `stationsIsFile` models
`os.path.isfile(parameters["stations"])`. -/
structure Params where
  starttime : ℕ
  endtime : ℕ
  sds_path : String
  sdsIsDir : Bool
  stationsPath : String
  stationsIsFile : Bool
  station_wise : Option Bool
  workers : ℕ
  cpuCount : ℕ
  deriving Repr, DecidableEq

/-- `utils.check_parameters`: fatal configuration checks, run once at startup
(the CPU-count check only warns and is not modelled as a failure). -/
def check_parameters (p : Params) : Except PyExc Params :=
  if p.endtime ≤ p.starttime then
    .error (.valueError ("Start time " ++ toString p.starttime ++ " is before end time "
      ++ toString p.endtime ++ "."))
  else if p.sdsIsDir = false then
    .error (.fileNotFoundError (p.sds_path ++ " does not exist."))
  else if p.stationsIsFile = false then
    .error (.fileNotFoundError (p.stationsPath ++ " does not exist."))
  else
    .ok { p with station_wise := some (p.station_wise.getD false) }

/-- The startup portion of `main.main`: validate parameters, then run the
per-unit work (abstracted as `runUnits`, producing the per-unit outputs).
`check_parameters` runs strictly before any unit. -/
def mainFlow {α : Type} (p : Params) (runUnits : Params → List α) :
    Except PyExc (List α) := do
  let p' ← check_parameters p
  .ok (runUnits p')

/-! ## Claim C4 -/

/-- What C4 asserts of `date_list start end` (timestamps in microseconds):
length ≥ 1, exactly one entry per day, entry `k` is the `(year, julday)` of
the `k`-th day after the start day, no duplicates, coverage of every day from
the start day through the end day inclusive, and a same-day range yields a
single entry. -/
def C4Prop (s e : ℕ) : Prop :=
  1 ≤ (date_list s e).length ∧
  (date_list s e).length = e / usPerDay - s / usPerDay + 1 ∧
  (∀ (k : ℕ) (hk : k < (date_list s e).length),
      (date_list s e)[k] = toDate (s / usPerDay + k)) ∧
  (date_list s e).Nodup ∧
  (∀ d : ℕ, toDate d ∈ date_list s e ↔ (s / usPerDay ≤ d ∧ d ≤ e / usPerDay)) ∧
  (s / usPerDay = e / usPerDay → date_list s e = [toDate (s / usPerDay)])

/-- C4: for every pair of timestamps with `start <= end`, `date_list` returns
a sequence of `(year, day_of_year)` entries of length at least 1 that advances
by exactly one day per entry, covers every day from the start date's midnight
through the end date's midnight inclusive, contains no duplicates even when
start and end carry intra-day times, and a same-day range yields exactly one
entry. -/
theorem claim_C4_date_list (s e : ℕ) (h : s ≤ e) : C4Prop s e := by
  have hdiv : s / usPerDay ≤ e / usPerDay := Nat.div_le_div_right h
  have hcf := date_list_eq s e h
  have hlen : (date_list s e).length = e / usPerDay - s / usPerDay + 1 := by
    rw [hcf, List.length_map, List.length_range]
    omega
  have hinj : Function.Injective (fun k => toDate (s / usPerDay + k)) := by
    intro a b hab
    have := toDate_injective hab
    omega
  refine ⟨by omega, hlen, ?_, ?_, ?_, ?_⟩
  · intro k hk
    have hk' : k < e / usPerDay + 1 - s / usPerDay := by
      rw [hlen] at hk; omega
    simp only [hcf, List.getElem_map, List.getElem_range]
  · rw [hcf]
    exact List.Nodup.map hinj (List.nodup_range _)
  · intro d
    rw [hcf]
    simp only [List.mem_map, List.mem_range]
    constructor
    · rintro ⟨k, hk, heq⟩
      have := toDate_injective heq
      omega
    · rintro ⟨h1, h2⟩
      exact ⟨d - s / usPerDay, by omega, by congr 1; omega⟩
  · intro hsame
    rw [hcf, hsame]
    have h1 : e / usPerDay + 1 - e / usPerDay = 1 := by omega
    have hr1 : List.range 1 = [0] := rfl
    rw [h1, hr1]
    simp [hsame]

/-- Witness for C4 at `start = 3 µs, end = 1 day + 5 µs`. -/
theorem claim_C4_date_list_witness :
    (3 : ℕ) ≤ 86400000005 ∧ C4Prop 3 86400000005 :=
  ⟨by norm_num, claim_C4_date_list 3 86400000005 (by norm_num)⟩

/-! ## Claim C6 -/

/-- What C6 asserts of `start_and_endtime (y, j) st et`: with
`day_start = midnight(y, j)` and `day_end = day_start + 1 day - 1 µs`, the
window start is the global starttime exactly when it falls within that day
(else `day_start`), likewise for the end, and the window stays within
`[day_start, day_end]`. -/
def C6Prop (y j : ℕ) : Prop :=
  ∀ (st et : Option ℕ),
    start_and_endtime (y, j) st et =
      ((match st with
        | some t =>
            if fromDate (y, j) * usPerDay ≤ t ∧ t < fromDate (y, j) * usPerDay + usPerDay
            then t else fromDate (y, j) * usPerDay
        | none => fromDate (y, j) * usPerDay),
       (match et with
        | some t =>
            if fromDate (y, j) * usPerDay ≤ t ∧ t < fromDate (y, j) * usPerDay + usPerDay
            then t else fromDate (y, j) * usPerDay + usPerDay - 1
        | none => fromDate (y, j) * usPerDay + usPerDay - 1)) ∧
    fromDate (y, j) * usPerDay ≤ (start_and_endtime (y, j) st et).1 ∧
    (start_and_endtime (y, j) st et).1 ≤ fromDate (y, j) * usPerDay + usPerDay - 1 ∧
    fromDate (y, j) * usPerDay ≤ (start_and_endtime (y, j) st et).2 ∧
    (start_and_endtime (y, j) st et).2 ≤ fromDate (y, j) * usPerDay + usPerDay - 1

/-- C6: the resolution window of a work unit is
`[midnight(year, doy), midnight + 1 day - 1 µs]`; a global start/end time
falling within that exact day replaces the corresponding full-day bound, and
the window never extends into an adjacent day. -/
theorem claim_C6_start_and_endtime (y j : ℕ)
    (hy : 1 ≤ y) (hj1 : 1 ≤ j) (hj2 : j ≤ daysInYear y) : C6Prop y j := by
  intro st et
  have hiff := fun t => inDay_iff hy hj1 hj2 t
  have hbound : ∀ (t : Option ℕ) (dflt : ℕ),
      fromDate (y, j) * usPerDay ≤ dflt →
      dflt ≤ fromDate (y, j) * usPerDay + usPerDay - 1 →
      (fromDate (y, j) * usPerDay ≤
        (match t with
         | some u =>
             if fromDate (y, j) * usPerDay ≤ u ∧ u < fromDate (y, j) * usPerDay + usPerDay
             then u else dflt
         | none => dflt) ∧
       (match t with
        | some u =>
            if fromDate (y, j) * usPerDay ≤ u ∧ u < fromDate (y, j) * usPerDay + usPerDay
            then u else dflt
        | none => dflt) ≤ fromDate (y, j) * usPerDay + usPerDay - 1) := by
    intro t dflt hlo hhi
    cases t with
    | none => exact ⟨hlo, hhi⟩
    | some u =>
      dsimp only
      by_cases hc : fromDate (y, j) * usPerDay ≤ u ∧ u < fromDate (y, j) * usPerDay + usPerDay
      · rw [if_pos hc]
        have := usPerDay_pos
        omega
      · rw [if_neg hc]
        exact ⟨hlo, hhi⟩
  have heq : start_and_endtime (y, j) st et =
      ((match st with
        | some t =>
            if fromDate (y, j) * usPerDay ≤ t ∧ t < fromDate (y, j) * usPerDay + usPerDay
            then t else fromDate (y, j) * usPerDay
        | none => fromDate (y, j) * usPerDay),
       (match et with
        | some t =>
            if fromDate (y, j) * usPerDay ≤ t ∧ t < fromDate (y, j) * usPerDay + usPerDay
            then t else fromDate (y, j) * usPerDay + usPerDay - 1
        | none => fromDate (y, j) * usPerDay + usPerDay - 1)) := by
    unfold start_and_endtime
    cases st <;> cases et <;> simp only [hiff]
  refine ⟨heq, ?_⟩
  rw [heq]
  have hpos := usPerDay_pos
  have h1 := hbound st (fromDate (y, j) * usPerDay) le_rfl (by omega)
  have h2 := hbound et (fromDate (y, j) * usPerDay + usPerDay - 1) (by omega) le_rfl
  exact ⟨h1.1, h1.2, h2.1, h2.2⟩

/-- Witness for C6 at `(year, julday) = (1, 2)` with a starttime inside that
day and no endtime. -/
theorem claim_C6_start_and_endtime_witness :
    (1 ≤ 1 ∧ 1 ≤ 2 ∧ 2 ≤ daysInYear 1) ∧ C6Prop 1 2 :=
  ⟨⟨le_rfl, by norm_num, by decide⟩,
    claim_C6_start_and_endtime 1 2 le_rfl (by norm_num) (by decide)⟩

/-! ## Claim C1 -/

/-- C1 counterexample: an archive-client query failure that is not a
`ValueError` (here an `IOError`) is NOT caught by `get_waveforms_client`
(whose `except` clause names only `ValueError`) and propagates out of
`get_waveforms`; so `get_waveforms` does not always return a stream. -/
theorem claim_C1_counterexample :
    get_waveforms_client (.error (.ioError "disk failure")) id =
        .error (.ioError "disk failure") ∧
      get_waveforms (.error (.ioError "disk failure")) "/archive" true (.ok []) id =
        .error (.ioError "disk failure") :=
  ⟨rfl, rfl⟩

/-- C1 (amended): the archive-client boundary downgrades exactly
`ValueError` to an empty result, and the glob-read boundary downgrades every
exception; consequently, whenever the archive-client query either succeeds or
raises a `ValueError` and the archive root directory exists, `get_waveforms`
returns a (possibly empty) stream whatever the glob read does. -/
theorem claim_C1_get_waveforms (q glob : Except PyExc Stream') (sds : String)
    (merge : Stream' → Stream')
    (hq : (∃ s, q = .ok s) ∨ (∃ m, q = .error (.valueError m))) :
    ∃ s, get_waveforms q sds true glob merge = .ok s := by
  have hsds : ∃ s, get_waveforms_sds_path sds true glob merge = .ok s := by
    unfold get_waveforms_sds_path
    cases glob with
    | ok st => exact ⟨merge st, rfl⟩
    | error e => exact ⟨[], rfl⟩
  rcases hq with ⟨s, rfl⟩ | ⟨m, rfl⟩
  · have hcl : get_waveforms_client (.ok s) merge = .ok (merge s) := rfl
    unfold get_waveforms
    rw [hcl]
    by_cases hlen : (merge s).length = 0
    · simpa [hlen] using hsds
    · exact ⟨merge s, by simp [hlen]⟩
  · have hcl : get_waveforms_client (.error (.valueError m)) merge =
        .ok ([] : Stream') := rfl
    unfold get_waveforms
    rw [hcl]
    simpa using hsds

/-- Witness for C1 (amended) at a `ValueError`-raising client query, existing
archive root and empty glob read. -/
theorem claim_C1_get_waveforms_witness :
    ((∃ s, (.error (.valueError "no data") : Except PyExc Stream') = .ok s) ∨
      (∃ m, (.error (.valueError "no data") : Except PyExc Stream') =
        .error (.valueError m))) ∧
      ∃ s, get_waveforms (.error (.valueError "no data")) "/archive" true (.ok []) id =
        .ok s :=
  ⟨Or.inr ⟨"no data", rfl⟩,
    claim_C1_get_waveforms _ _ _ _ (Or.inr ⟨"no data", rfl⟩)⟩

/-! ## Claim C5 -/

/-- C5 counterexample: the SDS-path fallback re-checks the archive root
itself on every invocation — with a vanished root it raises `IOError` inside
per-unit waveform resolution, so the check is NOT confined to startup. -/
theorem claim_C5_counterexample :
    get_waveforms_sds_path "/archive" false (.ok ["trace"]) id =
        .error (.ioError "Pathname /archive to read waveform data does not exist.") ∧
      get_waveforms (.ok []) "/archive" false (.ok ["trace"]) id =
        .error (.ioError "Pathname /archive to read waveform data does not exist.") :=
  ⟨rfl, rfl⟩

/-- C5 (amended): a missing archive root is a fatal configuration error
raised by `check_parameters` at startup, before any per-unit work begins (the
run errors with `FileNotFoundError` and no unit output is produced);
additionally, `get_waveforms_sds_path` re-checks the root on every per-unit
invocation and raises `IOError` if it is missing at that time. -/
theorem claim_C5_startup_check {α : Type} (p : Params) (runUnits : Params → List α)
    (hmiss : p.sdsIsDir = false) (htime : p.starttime < p.endtime) :
    mainFlow p runUnits =
        .error (.fileNotFoundError (p.sds_path ++ " does not exist.")) ∧
      ∀ (sds : String) (glob : Except PyExc Stream') (merge : Stream' → Stream'),
        get_waveforms_sds_path sds false glob merge =
          .error (.ioError ("Pathname " ++ sds ++ " to read waveform data does not exist.")) := by
  constructor
  · unfold mainFlow check_parameters
    rw [if_neg (by omega), hmiss]
    rfl
  · intro sds glob merge
    rfl

/-- A concrete parameter set whose archive root is missing. -/
def paramsMissingRoot : Params :=
  { starttime := 0, endtime := 10, sds_path := "/archive", sdsIsDir := false,
    stationsPath := "st.csv", stationsIsFile := true, station_wise := none,
    workers := 1, cpuCount := 4 }

/-- Witness for C5 (amended) at a concrete parameter set whose archive root
is missing. -/
theorem claim_C5_startup_check_witness :
    (paramsMissingRoot.sdsIsDir = false ∧
        paramsMissingRoot.starttime < paramsMissingRoot.endtime) ∧
      mainFlow paramsMissingRoot (fun _ => ([] : List ℕ)) =
        .error (.fileNotFoundError (paramsMissingRoot.sds_path ++ " does not exist.")) :=
  ⟨⟨rfl, by decide⟩,
    (claim_C5_startup_check paramsMissingRoot (fun _ => ([] : List ℕ)) rfl
      (by decide)).1⟩

/-! ## `picking.export_picks` and the pandas CSV model

A CSV file is a header line plus data rows of string cells.
`pd.DataFrame(dict).to_csv(filename)` writes the default integer index as a
leading column whose header cell is empty; `pd.read_csv` names such a column
`Unnamed: 0`. -/

/-- One SeisBench pick, fields already in their serialized (string) form. -/
structure Pick where
  trace_id : String
  start_time : String
  peak_time : String
  end_time : String
  peak_value : String
  phase : String
  deriving Repr, DecidableEq

/-- The six columns of the pick dictionary built by `export_picks`. -/
def pickColumns : List String :=
  ["id", "start_time", "peak_time", "end_time", "peak_value", "phase"]

/-- A CSV file on disk. -/
structure CsvFile where
  header : List String
  rows : List (List String)
  deriving Repr, DecidableEq

/-- One data row written by `df.to_csv`: default index first, then the six
pick fields. -/
def pickRow (i : ℕ) (p : Pick) : List String :=
  [toString i, p.trace_id, p.start_time, p.peak_time, p.end_time, p.peak_value, p.phase]

/-- `picking.export_picks`: build the six-column dict from the picklist and
write it with `df.to_csv(filename)` (index included, empty index header). -/
def export_picks (picklist : List Pick) : CsvFile :=
  { header := "" :: pickColumns,
    rows := picklist.enum.map (fun q => pickRow q.1 q.2) }

/-- `pd.read_csv`: columns of a CSV file, each as (name, cell list); an empty
header cell at position `i` is reported as `Unnamed: i`. -/
def readColumns (f : CsvFile) : List (String × List String) :=
  f.header.enum.map (fun q =>
    (if q.2 = "" then "Unnamed: " ++ toString q.1 else q.2,
     f.rows.map (fun r => r.getD q.1 "")))

/-- ASCII lower-casing of one character (Python `str.lower` on the ASCII
names appearing here). -/
def toLowerChar (c : Char) : Char :=
  if 'A' ≤ c ∧ c ≤ 'Z' then Char.ofNat (c.toNat + 32) else c

/-- Python `str.lower()`. -/
def lowerStr (s : String) : String := ⟨s.data.map toLowerChar⟩

/-- Whether `pat` is an initial segment of the character list. -/
def startsWithChars : List Char → List Char → Bool
  | [], _ => true
  | _ :: _, [] => false
  | p :: ps, c :: cs => p == c && startsWithChars ps cs

/-- Whether `pat` occurs inside the character list (Python `in`). -/
def containsChars (pat : List Char) : List Char → Bool
  | [] => startsWithChars pat []
  | c :: cs => startsWithChars pat (c :: cs) || containsChars pat cs

/-- Python `pat in s`. -/
def strContains (s pat : String) : Bool := containsChars pat.data s.data

/-- Python `str.split(sep)` for a one-character separator. -/
def splitOnCharAux (sep : Char) : List Char → List Char → List (List Char)
  | [], acc => [acc.reverse]
  | c :: cs, acc =>
      if c == sep then acc.reverse :: splitOnCharAux sep cs []
      else splitOnCharAux sep cs (c :: acc)

/-- Python `s.split(sep)` (one-character separator). -/
def splitOnChar (s : String) (sep : Char) : List String :=
  (splitOnCharAux sep s.data []).map (fun l => ⟨l⟩)

/-- Python's `"unnamed" in key.lower()`. -/
def hasUnnamedKey (k : String) : Bool := strContains (lowerStr k) "unnamed"

/-! ## `picking.picks_postprocessing` -/

/-- The in-memory per-station accumulator `picks[trace_id]`: one list per
pick column. -/
structure StationPicks where
  id : List String
  start_time : List String
  peak_time : List String
  end_time : List String
  peak_value : List String
  phase : List String
  deriving Repr, DecidableEq

/-- The freshly inserted accumulator (all six lists empty). -/
def StationPicks.empty : StationPicks := ⟨[], [], [], [], [], []⟩

/-- `picks[trace_id][key] += pickfile[key].to_list()`: appending a column to
the accumulator; an unknown key is a `KeyError` (`none`). -/
def updateKey (sp : StationPicks) (k : String) (vals : List String) :
    Option StationPicks :=
  if k = "id" then some { sp with id := sp.id ++ vals }
  else if k = "start_time" then some { sp with start_time := sp.start_time ++ vals }
  else if k = "peak_time" then some { sp with peak_time := sp.peak_time ++ vals }
  else if k = "end_time" then some { sp with end_time := sp.end_time ++ vals }
  else if k = "peak_value" then some { sp with peak_value := sp.peak_value ++ vals }
  else if k = "phase" then some { sp with phase := sp.phase ++ vals }
  else none

/-- The per-file column loop: skip columns whose lowercased name contains
`unnamed`, append every other column to the accumulator. -/
def addColumns (sp : StationPicks) : List (String × List String) → Option StationPicks
  | [] => some sp
  | (k, vs) :: rest =>
      if hasUnnamedKey k then addColumns sp rest
      else
        match updateKey sp k vs with
        | none => none
        | some sp' => addColumns sp' rest

/-- `pathlib.Path(filename).stem` on a plain file name (drop the last
extension). -/
def joinWithDot : List String → String
  | [] => ""
  | [t] => t
  | t :: rest => t ++ "." ++ joinWithDot rest

/-- `pathlib.Path(filename).stem` on a plain file name (drop the last
extension). -/
def stem (s : String) : String :=
  let parts := splitOnChar s '.'
  if parts.length ≤ 1 then s else joinWithDot parts.dropLast

/-- The grouping key: `pathlib.Path(filename).stem.split("_")[0]`. -/
def traceIdOf (filename : String) : String := (splitOnChar (stem filename) '_').headD ""

/-- The `picks` dictionary: station id → accumulator, in insertion order. -/
abbrev PicksDict := List (String × StationPicks)

/-- Python dict lookup. -/
def lookupSP : PicksDict → String → Option StationPicks
  | [], _ => none
  | (k, v) :: rest, key => if k = key then some v else lookupSP rest key

/-- Python dict in-place value update (key already present). -/
def updateSP : PicksDict → String → StationPicks → PicksDict
  | [], _, _ => []
  | (k, v) :: rest, key, sp =>
      if k = key then (k, sp) :: rest else (k, v) :: updateSP rest key sp

/-- The body of the aggregation loop for one `.pick` file: insert the
station's accumulator if new, then fold the file's (filtered) columns into
it.  The file is removed afterwards (removal is collected by the caller). -/
def processFile (d : PicksDict) (filename : String) (f : CsvFile) :
    Option PicksDict :=
  let tid := traceIdOf filename
  let d' := if (lookupSP d tid).isNone then d ++ [(tid, StationPicks.empty)] else d
  match lookupSP d' tid with
  | none => none
  | some sp =>
      match addColumns sp (readColumns f) with
      | none => none
      | some sp' => some (updateSP d' tid sp')

/-- The aggregation loop over all globbed `.pick` files. -/
def processFiles : List (String × CsvFile) → PicksDict → Option PicksDict
  | [], d => some d
  | (n, f) :: rest, d =>
      match processFile d n f with
      | none => none
      | some d' => processFiles rest d'

/-- Fieldwise concatenation (`all_picks[key] += picks[trace_id][key]`). -/
def StationPicks.appendSP (a b : StationPicks) : StationPicks :=
  ⟨a.id ++ b.id, a.start_time ++ b.start_time, a.peak_time ++ b.peak_time,
   a.end_time ++ b.end_time, a.peak_value ++ b.peak_value, a.phase ++ b.phase⟩

/-- The combined-mode accumulation of all stations' picks, in dict order. -/
def concatAll (d : PicksDict) : StationPicks :=
  d.foldl (fun acc e => acc.appendSP e.2) StationPicks.empty

/-- `pd.DataFrame(dict-of-six-lists).to_csv(...)`: header with leading empty
index cell, one row per entry with the default integer index first. -/
def dataFrameToCsv (sp : StationPicks) : CsvFile :=
  { header := "" :: pickColumns,
    rows := (List.range sp.id.length).map (fun i =>
      [toString i, sp.id.getD i "", sp.start_time.getD i "", sp.peak_time.getD i "",
       sp.end_time.getD i "", sp.peak_value.getD i "", sp.phase.getD i ""]) }

/-- `picking.picks_postprocessing`: fold every `.pick` file of the output
directory into the per-station dictionary (deleting each file), then write
either one `{station_id}.csv` per station or one combined `picks.csv`.
Returns `(removed file names, written files)`; `none` models a `KeyError`
from an unexpected column. -/
def picks_postprocessing (pickFiles : List (String × CsvFile))
    (station_wise : Bool) : Option (List String × List (String × CsvFile)) :=
  match processFiles pickFiles [] with
  | none => none
  | some picks =>
      some (pickFiles.map Prod.fst,
        if station_wise then picks.map (fun e => (e.1 ++ ".csv", dataFrameToCsv e.2))
        else [("picks.csv", dataFrameToCsv (concatAll picks))])

/-! ## `picking._pick_waveform` -/

/-- Resolving network/station/location from the station identifier:
`network, station, location = date_station[2].split(".")` with a 2-field
fallback; any other field count raises `ValueError`. -/
def splitStationId (s : String) : Except PyExc (String × String × String) :=
  match splitOnChar s '.' with
  | [n, st, loc] => .ok (n, st, loc)
  | [n, st] => .ok (n, st, "")
  | _ => .error (.valueError "could not unpack station id")

/-- The intermediate file name
`f"{date_station[2]}_{date_station[0]}.{date_station[1]}.pick"`. -/
def pickFilename (station_id : String) (year doy : ℕ) : String :=
  station_id ++ "_" ++ toString year ++ "." ++ toString doy ++ ".pick"

/-- `picking._pick_waveform`: split the station id, fetch the waveform
(`fetch` is the outcome of `get_waveforms`), classify, and unconditionally
export the picks — also when the picklist is empty. -/
def pick_waveform (year doy : ℕ) (station_id channel_code : String)
    (fetch : Except PyExc Stream') (classify : Stream' → List Pick) :
    Except PyExc (String × CsvFile) :=
  match splitStationId station_id with
  | .error e => .error e
  | .ok _ =>
      match fetch with
      | .error e => .error e
      | .ok waveform =>
          .ok (pickFilename station_id year doy, export_picks (classify waveform))

/-! ## `picking_interfaces.get_picker` -/

/-- The shared per-type load strategy: `Model.load(model_name)`, and only on
`FileNotFoundError` fall back to `Model.from_pretrained(model_name)`.  `load`
and `from_pretrained` are the external SeisBench entry points, taking the
architecture class name and the model identifier; a loaded model is an opaque
string handle. -/
def tryLoadModel (load from_pretrained : String → String → Except PyExc String)
    (cls model_name : String) : Except PyExc String :=
  match load cls model_name with
  | .error (.fileNotFoundError _) => from_pretrained cls model_name
  | r => r

/-- `picking_interfaces.get_picker`. -/
def get_picker (type model_name : String)
    (load from_pretrained : String → String → Except PyExc String) :
    Except PyExc String :=
  if lowerStr type = "phasenet" then tryLoadModel load from_pretrained "PhaseNet" model_name
  else if lowerStr type = "eqt" then tryLoadModel load from_pretrained "EQTransformer" model_name
  else if lowerStr type = "gpd" then tryLoadModel load from_pretrained "GPD" model_name
  else .error (.valueError ("SeisBench model " ++ type ++
    " is not implemented in core.picking_interfaces.py"))

/-! ## `picking.pick_waveforms`

Python dicts are mutable heap objects; the heap is a list of dict values
addressed by allocation index, so that `copy.deepcopy` (a fresh allocation)
and aliasing are distinguishable. -/

/-- A heap of Python dict objects. -/
abbrev DictHeap := List (List (String × String))

/-- Dereference a dict. -/
def heapGet (h : DictHeap) (r : ℕ) : List (String × String) := h.getD r []

/-- Overwrite the dict object behind `r`. -/
def heapSet (h : DictHeap) (r : ℕ) (v : List (String × String)) : DictHeap :=
  h.set r v

/-- Python dict lookup (string values). -/
def lookupDict : List (String × String) → String → Option String
  | [], _ => none
  | (k, v) :: rest, key => if k = key then some v else lookupDict rest key

/-- `copy.deepcopy(d)`: allocate a fresh dict object with the same entries;
returns the new heap and the fresh reference. -/
def deepcopy (h : DictHeap) (r : ℕ) : DictHeap × ℕ := (h ++ [heapGet h r], h.length)

/-- `d.pop(key)`: read and remove `key` from the dict object behind `r`
(raising `KeyError` when absent). -/
def popKeyRef (h : DictHeap) (r : ℕ) (k : String) :
    Except PyExc (String × DictHeap) :=
  match lookupDict (heapGet h r) k with
  | none => .error (.keyError k)
  | some v => .ok (v, heapSet h r ((heapGet h r).filter (fun e => !(e.1 = k))))

/-- Outcome of `pick_waveforms`: the final heap plus either the aggregation
output (removed intermediates, written final files) or the raised exception. -/
structure PickWaveformsResult where
  heap : DictHeap
  outcome : Except PyExc (List String × List (String × CsvFile))
  deriving Repr

/-- `picking.pick_waveforms`: deep-copy `picking_args`, pop `picker` and
`model` from the copy, load the picker (before the joblib pool starts), run
every work unit (`unitRun` abstracts `_pick_waveform` with the loaded
picker), then aggregate with `picks_postprocessing`. -/
def pick_waveforms (h : DictHeap) (argsRef : ℕ)
    (load from_pretrained : String → String → Except PyExc String)
    (units : List (ℕ × ℕ × String × String))
    (unitRun : String → ℕ × ℕ × String × String → Except PyExc (String × CsvFile))
    (station_wise : Bool) : PickWaveformsResult :=
  let cp := deepcopy h argsRef
  match popKeyRef cp.1 cp.2 "picker" with
  | .error e => ⟨cp.1, .error e⟩
  | .ok (pickerName, h2) =>
      match popKeyRef h2 cp.2 "model" with
      | .error e => ⟨h2, .error e⟩
      | .ok (modelName, h3) =>
          match get_picker pickerName modelName load from_pretrained with
          | .error e => ⟨h3, .error e⟩
          | .ok picker =>
              match units.mapM (unitRun picker) with
              | .error e => ⟨h3, .error e⟩
              | .ok files =>
                  match picks_postprocessing files station_wise with
                  | none => ⟨h3, .error (.keyError "unexpected column")⟩
                  | some out => ⟨h3, .ok out⟩

/-! ## Aggregation lemmas -/

theorem export_picks_rows_length (pl : List Pick) :
    (export_picks pl).rows.length = pl.length := by
  simp [export_picks]

theorem rows_getD_col (jj : ℕ) (g : Pick → String)
    (hg : ∀ i p, (pickRow i p).getD jj "" = g p) :
    ∀ (n : ℕ) (pl : List Pick),
      ((List.enumFrom n pl).map (fun q => pickRow q.1 q.2)).map
          (fun r => r.getD jj "") = pl.map g := by
  intro n pl
  induction pl generalizing n with
  | nil => rfl
  | cons p ps ih =>
      have ihn := ih (n + 1)
      rw [List.map_map] at ihn
      simp only [List.enumFrom, List.map_cons, List.map_map]
      exact congrArg₂ List.cons (hg n p) ihn

theorem rows_getD_idx (n : ℕ) (pl : List Pick) :
    ((List.enumFrom n pl).map (fun q => pickRow q.1 q.2)).map
        (fun r => r.getD 0 "") =
      (List.enumFrom n pl).map (fun q => toString q.1) := by
  induction pl generalizing n with
  | nil => rfl
  | cons p ps ih =>
      have ihn := ih (n + 1)
      rw [List.map_map] at ihn
      simp only [List.enumFrom, List.map_cons, List.map_map]
      exact congrArg₂ List.cons rfl ihn

theorem readColumns_export (pl : List Pick) :
    readColumns (export_picks pl) =
      [("Unnamed: 0", (List.enumFrom 0 pl).map (fun q => toString q.1)),
       ("id", pl.map Pick.trace_id),
       ("start_time", pl.map Pick.start_time),
       ("peak_time", pl.map Pick.peak_time),
       ("end_time", pl.map Pick.end_time),
       ("peak_value", pl.map Pick.peak_value),
       ("phase", pl.map Pick.phase)] := by
  have h0 := rows_getD_idx 0 pl
  have h1 := rows_getD_col 1 Pick.trace_id (fun i p => rfl) 0 pl
  have h2 := rows_getD_col 2 Pick.start_time (fun i p => rfl) 0 pl
  have h3 := rows_getD_col 3 Pick.peak_time (fun i p => rfl) 0 pl
  have h4 := rows_getD_col 4 Pick.end_time (fun i p => rfl) 0 pl
  have h5 := rows_getD_col 5 Pick.peak_value (fun i p => rfl) 0 pl
  have h6 := rows_getD_col 6 Pick.phase (fun i p => rfl) 0 pl
  unfold readColumns export_picks
  simp only [pickColumns, List.enum, List.enumFrom, List.map_cons, List.map_nil,
    List.map_map]
  simp only [List.cons.injEq, Prod.mk.injEq]
  refine ⟨⟨by decide, ?_⟩, ⟨by decide, ?_⟩, ⟨by decide, ?_⟩, ⟨by decide, ?_⟩,
    ⟨by decide, ?_⟩, ⟨by decide, ?_⟩, ⟨by decide, ?_⟩, trivial⟩ <;>
    simp only [List.map_map] at h0 h1 h2 h3 h4 h5 h6 ⊢ <;>
    first
      | exact h0 | exact h1 | exact h2 | exact h3 | exact h4 | exact h5 | exact h6

theorem addColumns_cons_skip (sp : StationPicks) (k : String) (vs : List String)
    (rest : List (String × List String)) (h : hasUnnamedKey k = true) :
    addColumns sp ((k, vs) :: rest) = addColumns sp rest := by
  simp [addColumns, h]

theorem addColumns_cons_upd (sp sp' : StationPicks) (k : String) (vs : List String)
    (rest : List (String × List String)) (h : hasUnnamedKey k = false)
    (hu : updateKey sp k vs = some sp') :
    addColumns sp ((k, vs) :: rest) = addColumns sp' rest := by
  simp [addColumns, h, hu]

/-- Folding one export-shaped file into an accumulator appends each pick
field columnwise and strips the `Unnamed: 0` index column. -/
theorem addColumns_export (sp : StationPicks) (pl : List Pick) :
    addColumns sp (readColumns (export_picks pl)) =
      some ⟨sp.id ++ pl.map Pick.trace_id,
            sp.start_time ++ pl.map Pick.start_time,
            sp.peak_time ++ pl.map Pick.peak_time,
            sp.end_time ++ pl.map Pick.end_time,
            sp.peak_value ++ pl.map Pick.peak_value,
            sp.phase ++ pl.map Pick.phase⟩ := by
  have u1 : ∀ (t : StationPicks) vals, updateKey t "id" vals =
      some { t with id := t.id ++ vals } := fun _ _ => by simp [updateKey]
  have u2 : ∀ (t : StationPicks) vals, updateKey t "start_time" vals =
      some { t with start_time := t.start_time ++ vals } := fun _ _ => by simp [updateKey]
  have u3 : ∀ (t : StationPicks) vals, updateKey t "peak_time" vals =
      some { t with peak_time := t.peak_time ++ vals } := fun _ _ => by simp [updateKey]
  have u4 : ∀ (t : StationPicks) vals, updateKey t "end_time" vals =
      some { t with end_time := t.end_time ++ vals } := fun _ _ => by simp [updateKey]
  have u5 : ∀ (t : StationPicks) vals, updateKey t "peak_value" vals =
      some { t with peak_value := t.peak_value ++ vals } := fun _ _ => by simp [updateKey]
  have u6 : ∀ (t : StationPicks) vals, updateKey t "phase" vals =
      some { t with phase := t.phase ++ vals } := fun _ _ => by simp [updateKey]
  rw [readColumns_export]
  rw [addColumns_cons_skip _ _ _ _ (by decide)]
  rw [addColumns_cons_upd _ _ _ _ _ (by decide) (u1 _ _)]
  rw [addColumns_cons_upd _ _ _ _ _ (by decide) (u2 _ _)]
  rw [addColumns_cons_upd _ _ _ _ _ (by decide) (u3 _ _)]
  rw [addColumns_cons_upd _ _ _ _ _ (by decide) (u4 _ _)]
  rw [addColumns_cons_upd _ _ _ _ _ (by decide) (u5 _ _)]
  rw [addColumns_cons_upd _ _ _ _ _ (by decide) (u6 _ _)]
  rfl

/-- Total number of accumulated rows (length of the `id` lists) in the
dictionary. -/
def totalIds (d : PicksDict) : ℕ := (d.map (fun e => e.2.id.length)).sum

theorem totalIds_append_empty (d : PicksDict) (tid : String) :
    totalIds (d ++ [(tid, StationPicks.empty)]) = totalIds d := by
  simp [totalIds, StationPicks.empty]

theorem lookupSP_cons (k : String) (v : StationPicks) (rest : PicksDict)
    (key : String) :
    lookupSP ((k, v) :: rest) key = if k = key then some v else lookupSP rest key :=
  rfl

theorem updateSP_cons (k : String) (v : StationPicks) (rest : PicksDict)
    (key : String) (sp : StationPicks) :
    updateSP ((k, v) :: rest) key sp =
      if k = key then (k, sp) :: rest else (k, v) :: updateSP rest key sp :=
  rfl

theorem lookupSP_append_self (d : PicksDict) (tid : String)
    (h : lookupSP d tid = none) :
    lookupSP (d ++ [(tid, StationPicks.empty)]) tid = some StationPicks.empty := by
  induction d with
  | nil => simp [lookupSP]
  | cons e rest ih =>
      obtain ⟨k, v⟩ := e
      rw [List.cons_append, lookupSP_cons]
      rw [lookupSP_cons] at h
      by_cases hk : k = tid
      · rw [if_pos hk] at h
        cases h
      · rw [if_neg hk] at h ⊢
        exact ih h

theorem totalIds_updateSP (d : PicksDict) (tid : String) (sp sp' : StationPicks)
    (h : lookupSP d tid = some sp) :
    totalIds (updateSP d tid sp') + sp.id.length = totalIds d + sp'.id.length := by
  induction d with
  | nil => cases h
  | cons e rest ih =>
      obtain ⟨k, v⟩ := e
      rw [lookupSP_cons] at h
      rw [updateSP_cons]
      by_cases hk : k = tid
      · rw [if_pos hk] at h
        injection h with h
        rw [if_pos hk]
        simp [totalIds, h]
        omega
      · rw [if_neg hk] at h
        rw [if_neg hk]
        have := ih h
        simp [totalIds] at this ⊢
        omega

/-- `processFile` when the station key is new. -/
theorem processFile_new (d : PicksDict) (name : String) (f : CsvFile)
    (sp' : StationPicks) (hlk : lookupSP d (traceIdOf name) = none)
    (hadd : addColumns StationPicks.empty (readColumns f) = some sp') :
    processFile d name f =
      some (updateSP (d ++ [(traceIdOf name, StationPicks.empty)])
        (traceIdOf name) sp') := by
  unfold processFile
  have hsome := lookupSP_append_self d (traceIdOf name) hlk
  simp only [hlk, Option.isNone_none, if_true, hsome, hadd]

/-- `processFile` when the station key is already present. -/
theorem processFile_seen (d : PicksDict) (name : String) (f : CsvFile)
    (sp sp' : StationPicks) (hlk : lookupSP d (traceIdOf name) = some sp)
    (hadd : addColumns sp (readColumns f) = some sp') :
    processFile d name f = some (updateSP d (traceIdOf name) sp') := by
  unfold processFile
  simp only [hlk, Option.isNone_some, Bool.false_eq_true, if_false, hadd]

/-- Folding one export-shaped file into the dictionary succeeds and adds
exactly that file's pick count to the accumulated total. -/
theorem processFile_export (d : PicksDict) (name : String) (pl : List Pick) :
    ∃ d', processFile d name (export_picks pl) = some d' ∧
      totalIds d' = totalIds d + pl.length := by
  cases hlk : lookupSP d (traceIdOf name) with
  | none =>
      refine ⟨_, processFile_new d name _ _ hlk (addColumns_export _ pl), ?_⟩
      have hsome := lookupSP_append_self d (traceIdOf name) hlk
      have hupd := totalIds_updateSP (d ++ [(traceIdOf name, StationPicks.empty)])
        (traceIdOf name) StationPicks.empty
        ⟨StationPicks.empty.id ++ pl.map Pick.trace_id,
         StationPicks.empty.start_time ++ pl.map Pick.start_time,
         StationPicks.empty.peak_time ++ pl.map Pick.peak_time,
         StationPicks.empty.end_time ++ pl.map Pick.end_time,
         StationPicks.empty.peak_value ++ pl.map Pick.peak_value,
         StationPicks.empty.phase ++ pl.map Pick.phase⟩ hsome
      have happ := totalIds_append_empty d (traceIdOf name)
      simp only [StationPicks.empty, List.nil_append, List.length_nil,
        List.length_map] at hupd happ ⊢
      omega
  | some sp =>
      refine ⟨_, processFile_seen d name _ sp _ hlk (addColumns_export sp pl), ?_⟩
      have hupd := totalIds_updateSP d (traceIdOf name) sp
        ⟨sp.id ++ pl.map Pick.trace_id,
         sp.start_time ++ pl.map Pick.start_time,
         sp.peak_time ++ pl.map Pick.peak_time,
         sp.end_time ++ pl.map Pick.end_time,
         sp.peak_value ++ pl.map Pick.peak_value,
         sp.phase ++ pl.map Pick.phase⟩ hlk
      simp only [List.length_append, List.length_map] at hupd ⊢
      omega

/-- Folding a run's export-shaped files into the dictionary succeeds and the
accumulated total is the sum of the files' row counts. -/
theorem processFiles_export :
    ∀ (files : List (String × CsvFile)) (d : PicksDict),
      (∀ x ∈ files, ∃ pl, x.2 = export_picks pl) →
      ∃ d', processFiles files d = some d' ∧
        totalIds d' = totalIds d + (files.map (fun x => x.2.rows.length)).sum := by
  intro files
  induction files with
  | nil => exact fun d _ => ⟨d, rfl, by simp⟩
  | cons x rest ih =>
      intro d h
      obtain ⟨n, f⟩ := x
      obtain ⟨pl, hpl⟩ := h (n, f) (List.mem_cons_self _ rest)
      obtain ⟨d1, hd1, ht1⟩ := processFile_export d n pl
      obtain ⟨d2, hd2, ht2⟩ := ih d1 (fun y hy => h y (List.mem_cons_of_mem _ hy))
      refine ⟨d2, ?_, ?_⟩
      · unfold processFiles
        simp only at hpl
        rw [hpl, hd1]
        exact hd2
      · simp only at hpl
        simp only [List.map_cons, List.sum_cons, hpl, export_picks_rows_length]
        omega

theorem concatAll_id_aux (d : PicksDict) : ∀ acc : StationPicks,
    (d.foldl (fun a e => a.appendSP e.2) acc).id.length = acc.id.length + totalIds d := by
  induction d with
  | nil => intro acc; simp [totalIds]
  | cons e rest ih =>
      intro acc
      simp only [List.foldl_cons]
      rw [ih]
      simp [totalIds, StationPicks.appendSP]
      omega

theorem concatAll_id_length (d : PicksDict) :
    (concatAll d).id.length = totalIds d := by
  unfold concatAll
  rw [concatAll_id_aux]
  simp [StationPicks.empty]

theorem dataFrameToCsv_rows_length (sp : StationPicks) :
    (dataFrameToCsv sp).rows.length = sp.id.length := by
  simp [dataFrameToCsv]

/-- Aggregating the single export-shaped file of one unit reconstructs the
six pick columns exactly. -/
theorem processFiles_single (name : String) (pl : List Pick) :
    processFiles [(name, export_picks pl)] [] =
      some [(traceIdOf name,
        (⟨pl.map Pick.trace_id, pl.map Pick.start_time, pl.map Pick.peak_time,
          pl.map Pick.end_time, pl.map Pick.peak_value,
          pl.map Pick.phase⟩ : StationPicks))] := by
  have hnew := processFile_new [] name (export_picks pl)
    ⟨StationPicks.empty.id ++ pl.map Pick.trace_id,
     StationPicks.empty.start_time ++ pl.map Pick.start_time,
     StationPicks.empty.peak_time ++ pl.map Pick.peak_time,
     StationPicks.empty.end_time ++ pl.map Pick.end_time,
     StationPicks.empty.peak_value ++ pl.map Pick.peak_value,
     StationPicks.empty.phase ++ pl.map Pick.phase⟩ rfl (addColumns_export _ pl)
  unfold processFiles
  rw [hnew]
  unfold processFiles
  simp only [List.nil_append, updateSP_cons, if_pos rfl]
  simp [StationPicks.empty]

theorem empty_appendSP (sp : StationPicks) : StationPicks.empty.appendSP sp = sp := by
  cases sp
  simp [StationPicks.empty, StationPicks.appendSP]

theorem concatAll_single (tid : String) (sp : StationPicks) :
    concatAll [(tid, sp)] = sp := by
  unfold concatAll
  simp [empty_appendSP]

/-- Writing the reconstructed six columns back with `df.to_csv` reproduces
the intermediate file byte for byte. -/
theorem dataFrameToCsv_export (pl : List Pick) :
    dataFrameToCsv ⟨pl.map Pick.trace_id, pl.map Pick.start_time,
      pl.map Pick.peak_time, pl.map Pick.end_time, pl.map Pick.peak_value,
      pl.map Pick.phase⟩ = export_picks pl := by
  unfold dataFrameToCsv export_picks
  congr 1
  apply List.ext_getElem
  · simp
  · intro i h1 h2
    simp only [List.getElem_map, List.getElem_range, List.getElem_enum]
    have hi : i < pl.length := by simpa using h2
    unfold pickRow
    congr 1
    rw [List.getD_eq_getElem _ _ (by simpa using hi), List.getElem_map]
    congr 1
    rw [List.getD_eq_getElem _ _ (by simpa using hi), List.getElem_map]
    congr 1
    rw [List.getD_eq_getElem _ _ (by simpa using hi), List.getElem_map]
    congr 1
    rw [List.getD_eq_getElem _ _ (by simpa using hi), List.getElem_map]
    congr 1
    rw [List.getD_eq_getElem _ _ (by simpa using hi), List.getElem_map]
    congr 1
    rw [List.getD_eq_getElem _ _ (by simpa using hi), List.getElem_map]

/-! ## Claim C7 -/

/-- C7: aggregating a run's intermediate files with `station_wise = false`
preserves the total row count (combined rows = sum of the per-file rows), and
a single intermediate file of N picks round-trips into a combined `picks.csv`
with exactly those N rows and the same column values. -/
theorem claim_C7_roundtrip :
    (∀ (files : List (String × CsvFile)),
      (∀ x ∈ files, ∃ pl, x.2 = export_picks pl) →
      ∃ removed out, picks_postprocessing files false =
          some (removed, [("picks.csv", out)]) ∧
        removed = files.map Prod.fst ∧
        out.rows.length = (files.map (fun x => x.2.rows.length)).sum) ∧
    (∀ (name : String) (pl : List Pick),
      picks_postprocessing [(name, export_picks pl)] false =
        some ([name], [("picks.csv", export_picks pl)])) := by
  constructor
  · intro files h
    obtain ⟨d', hd', ht⟩ := processFiles_export files [] h
    refine ⟨files.map Prod.fst, dataFrameToCsv (concatAll d'), ?_, rfl, ?_⟩
    · unfold picks_postprocessing
      rw [hd']
      rfl
    · rw [dataFrameToCsv_rows_length, concatAll_id_length]
      simpa [totalIds] using ht
  · intro name pl
    unfold picks_postprocessing
    rw [processFiles_single]
    dsimp only
    rw [concatAll_single, dataFrameToCsv_export]
    rfl

/-- Witness for C7: one intermediate file with one pick, aggregated in
combined mode. -/
theorem claim_C7_roundtrip_witness :
    picks_postprocessing
        [("A.B_2024.1.pick", export_picks [⟨"A.B.", "t0", "t1", "t2", "0.9", "P"⟩])]
        false =
      some (["A.B_2024.1.pick"],
        [("picks.csv", export_picks [⟨"A.B.", "t0", "t1", "t2", "0.9", "P"⟩])]) :=
  claim_C7_roundtrip.2 "A.B_2024.1.pick" [⟨"A.B.", "t0", "t1", "t2", "0.9", "P"⟩]

/-! ## Claim C2 -/

/-- C2 counterexample: re-running the aggregation on the (already emptied)
directory in combined mode is NOT a no-op: it writes a header-only
`picks.csv`, so an output file is produced. -/
theorem claim_C2_counterexample :
    picks_postprocessing [] false =
        some ([], [("picks.csv", ⟨"" :: pickColumns, []⟩)]) ∧
      ([("picks.csv", (⟨"" :: pickColumns, []⟩ : CsvFile))] :
        List (String × CsvFile)) ≠ [] := by
  exact ⟨rfl, by simp⟩

/-- C2 (amended): every intermediate `.pick` file is deleted exactly once
(the removed list is exactly the scanned file list); re-running aggregation
on the now-empty directory raises no error, and in per-station mode produces
no output file — but in combined mode it still writes one header-only
`picks.csv` with zero data rows. -/
theorem claim_C2_aggregation (files : List (String × CsvFile)) (sw : Bool)
    (out : List String × List (String × CsvFile))
    (h : picks_postprocessing files sw = some out) :
    out.1 = files.map Prod.fst ∧
      picks_postprocessing [] true = some ([], []) ∧
      picks_postprocessing [] false =
        some ([], [("picks.csv", ⟨"" :: pickColumns, []⟩)]) := by
  refine ⟨?_, rfl, rfl⟩
  unfold picks_postprocessing at h
  cases hp : processFiles files [] with
  | none => rw [hp] at h; cases h
  | some picks =>
      rw [hp] at h
      injection h with h
      rw [← h]

/-- Witness for C2 (amended) at the empty directory in per-station mode. -/
theorem claim_C2_aggregation_witness :
    picks_postprocessing ([] : List (String × CsvFile)) true = some ([], []) ∧
      ((([], []) : List String × List (String × CsvFile)).1 =
          ([] : List (String × CsvFile)).map Prod.fst ∧
        picks_postprocessing [] true = some ([], []) ∧
        picks_postprocessing [] false =
          some ([], [("picks.csv", ⟨"" :: pickColumns, []⟩)])) :=
  ⟨rfl, claim_C2_aggregation [] true ([], []) rfl⟩

/-! ## Claim C3 -/

/-- C3 counterexample: the final combined output of a run over one
intermediate file does not have the six pick fields as its column schema —
its header carries a leading pandas index column (empty name) before them. -/
theorem claim_C3_counterexample :
    picks_postprocessing
        [("A.B_2024.1.pick", export_picks [⟨"A.B.", "t0", "t1", "t2", "0.9", "P"⟩])]
        false =
      some (["A.B_2024.1.pick"],
        [("picks.csv", export_picks [⟨"A.B.", "t0", "t1", "t2", "0.9", "P"⟩])]) ∧
      (export_picks [⟨"A.B.", "t0", "t1", "t2", "0.9", "P"⟩]).header ≠ pickColumns :=
  ⟨by decide, by decide⟩

/-- C3 (amended): for every aggregation run over per-unit files written by
`export_picks`, the index-like `Unnamed:` column of each per-unit file is
stripped during aggregation and the aggregated data columns are exactly the
six Pick fields; but every final file (either mode) is written with one
extra leading pandas index column, so its on-disk header is `"" ::
pickColumns` rather than `pickColumns` itself. -/
theorem claim_C3_schema (files : List (String × CsvFile)) (sw : Bool)
    (h : ∀ x ∈ files, ∃ pl, x.2 = export_picks pl) :
    ∃ out, picks_postprocessing files sw = some out ∧
      ∀ f ∈ out.2, f.2.header = "" :: pickColumns := by
  obtain ⟨d', hd', _⟩ := processFiles_export files [] h
  have hpp : picks_postprocessing files sw = some (files.map Prod.fst,
      if sw then d'.map (fun e => (e.1 ++ ".csv", dataFrameToCsv e.2))
      else [("picks.csv", dataFrameToCsv (concatAll d'))]) := by
    unfold picks_postprocessing
    rw [hd']
  refine ⟨_, hpp, ?_⟩
  cases sw with
  | true =>
      intro f hf
      rw [if_pos rfl] at hf
      rw [List.mem_map] at hf
      obtain ⟨e, he, rfl⟩ := hf
      rfl
  | false =>
      intro f hf
      simp only [Bool.false_eq_true, if_false, List.mem_singleton] at hf
      rw [hf]
      rfl

/-- Witness for C3 (amended): one single-pick intermediate file, combined
mode. -/
theorem claim_C3_schema_witness :
    (∀ x ∈ [("A.B_2024.1.pick",
        export_picks [(⟨"A.B.", "t0", "t1", "t2", "0.9", "P"⟩ : Pick)])],
      ∃ pl, (x : String × CsvFile).2 = export_picks pl) ∧
      ∃ out, picks_postprocessing
          [("A.B_2024.1.pick",
            export_picks [(⟨"A.B.", "t0", "t1", "t2", "0.9", "P"⟩ : Pick)])]
          false = some out ∧
        ∀ f ∈ out.2, f.2.header = "" :: pickColumns := by
  have hh : ∀ x ∈ [("A.B_2024.1.pick",
      export_picks [(⟨"A.B.", "t0", "t1", "t2", "0.9", "P"⟩ : Pick)])],
      ∃ pl, (x : String × CsvFile).2 = export_picks pl := by
    intro x hx
    rw [List.mem_singleton] at hx
    exact ⟨[⟨"A.B.", "t0", "t1", "t2", "0.9", "P"⟩], by rw [hx]⟩
  exact ⟨hh, claim_C3_schema _ false hh⟩

/-! ## Claim C9 -/

/-- C9: for every successfully parsed work unit with available waveform, an
intermediate file named `{station_id}_{year}.{day_of_year}.pick` is written
unconditionally; with zero picks it contains the six pick columns and no
data rows. -/
theorem claim_C9_pick_waveform (year doy : ℕ) (sid cc : String)
    (parts : String × String × String) (wf : Stream')
    (classify : Stream' → List Pick)
    (hsplit : splitStationId sid = .ok parts) :
    pick_waveform year doy sid cc (.ok wf) classify =
        .ok (pickFilename sid year doy, export_picks (classify wf)) ∧
      (classify wf = [] →
        (export_picks (classify wf)).rows = [] ∧
          ∀ c ∈ pickColumns, c ∈ (export_picks (classify wf)).header) := by
  constructor
  · unfold pick_waveform
    rw [hsplit]
  · intro hempty
    rw [hempty]
    exact ⟨rfl, fun c hc => List.mem_cons_of_mem _ hc⟩

/-- Witness for C9 at a zero-pick unit. -/
theorem claim_C9_pick_waveform_witness :
    splitStationId "AB.ST" = .ok ("AB", "ST", "") ∧
      (pick_waveform 2024 7 "AB.ST" "HH" (.ok []) (fun _ => []) =
          .ok (pickFilename "AB.ST" 2024 7, export_picks []) ∧
        (([] : List Pick) = [] →
          (export_picks ([] : List Pick)).rows = [] ∧
            ∀ c ∈ pickColumns, c ∈ (export_picks ([] : List Pick)).header)) :=
  ⟨by decide,
    claim_C9_pick_waveform 2024 7 "AB.ST" "HH" ("AB", "ST", "") [] (fun _ => [])
      (by decide)⟩

/-! ## Claim C8 -/

/-- What C8 asserts: an unrecognized picker type is a fatal, descriptive
`ValueError`; it surfaces from `pick_waveforms` before any work unit runs
(the joblib pool is started only after `get_picker` returns); and a
recognized type loads `model_identifier` as a local weights file first,
falling back to the named pretrained weights exactly on
`FileNotFoundError`. -/
def C8Prop : Prop :=
  (∀ (type model : String) (load fp : String → String → Except PyExc String),
    lowerStr type ≠ "phasenet" → lowerStr type ≠ "eqt" → lowerStr type ≠ "gpd" →
    get_picker type model load fp =
      .error (.valueError ("SeisBench model " ++ type ++
        " is not implemented in core.picking_interfaces.py"))) ∧
  (∀ (cls model : String) (load fp : String → String → Except PyExc String),
    (∀ m, load cls model = .error (.fileNotFoundError m) →
      tryLoadModel load fp cls model = fp cls model) ∧
    (∀ r, load cls model = .ok r → tryLoadModel load fp cls model = .ok r)) ∧
  (∀ (type model : String) (load fp : String → String → Except PyExc String),
    (lowerStr type = "phasenet" →
      get_picker type model load fp = tryLoadModel load fp "PhaseNet" model) ∧
    (lowerStr type = "eqt" →
      get_picker type model load fp = tryLoadModel load fp "EQTransformer" model) ∧
    (lowerStr type = "gpd" →
      get_picker type model load fp = tryLoadModel load fp "GPD" model)) ∧
  (∀ (h : DictHeap) (argsRef : ℕ) (load fp : String → String → Except PyExc String)
    (units : List (ℕ × ℕ × String × String))
    (unitRun : String → ℕ × ℕ × String × String → Except PyExc (String × CsvFile))
    (sw : Bool) (pickerName modelName : String) (h2 h3 : DictHeap) (e : PyExc),
    popKeyRef (deepcopy h argsRef).1 (deepcopy h argsRef).2 "picker" =
        .ok (pickerName, h2) →
    popKeyRef h2 (deepcopy h argsRef).2 "model" = .ok (modelName, h3) →
    get_picker pickerName modelName load fp = .error e →
    pick_waveforms h argsRef load fp units unitRun sw = ⟨h3, .error e⟩)

/-- C8: unrecognized picker types fail fatally with a descriptive error
before the parallel engine starts; recognized types try the local weights
file first and fall back to pretrained weights only on `FileNotFoundError`. -/
theorem claim_C8_get_picker : C8Prop := by
  refine ⟨?_, ?_, ?_, ?_⟩
  · intro type model load fp h1 h2 h3
    unfold get_picker
    rw [if_neg h1, if_neg h2, if_neg h3]
  · intro cls model load fp
    constructor
    · intro m hm
      unfold tryLoadModel
      rw [hm]
    · intro r hr
      unfold tryLoadModel
      rw [hr]
  · intro type model load fp
    refine ⟨?_, ?_, ?_⟩
    · intro hp
      unfold get_picker
      rw [if_pos hp]
    · intro hp
      unfold get_picker
      rw [hp, if_neg (by decide), if_pos rfl]
    · intro hp
      unfold get_picker
      rw [hp, if_neg (by decide), if_neg (by decide), if_pos rfl]
  · intro h argsRef load fp units unitRun sw pickerName modelName h2 h3 e hp1 hp2 hg
    simp only [pick_waveforms]
    rw [hp1]
    dsimp only
    rw [hp2]
    dsimp only
    rw [hg]

/-- Witness for C8 (first conjunct) at the unrecognized type `"XYZ"`. -/
theorem claim_C8_get_picker_witness :
    (lowerStr "XYZ" ≠ "phasenet" ∧ lowerStr "XYZ" ≠ "eqt" ∧ lowerStr "XYZ" ≠ "gpd") ∧
      get_picker "XYZ" "m" (fun _ _ => .ok "L") (fun _ _ => .ok "R") =
        .error (.valueError ("SeisBench model " ++ "XYZ" ++
          " is not implemented in core.picking_interfaces.py")) :=
  ⟨⟨by decide, by decide, by decide⟩,
    claim_C8_get_picker.1 "XYZ" "m" (fun _ _ => .ok "L") (fun _ _ => .ok "R")
      (by decide) (by decide) (by decide)⟩

/-! ## Claim C10 -/

theorem heapGet_append (h : DictHeap) (x : List (String × String)) (r : ℕ)
    (hr : r < h.length) : heapGet (h ++ [x]) r = heapGet h r := by
  unfold heapGet
  rw [List.getD_eq_getElem?_getD, List.getD_eq_getElem?_getD,
    List.getElem?_append_left hr]

theorem heapGet_set_ne (h : DictHeap) (r r' : ℕ) (v : List (String × String))
    (hne : r' ≠ r) : heapGet (heapSet h r v) r' = heapGet h r' := by
  unfold heapGet heapSet
  rw [List.getD_eq_getElem?_getD, List.getD_eq_getElem?_getD,
    List.getElem?_set_ne (fun hc => hne hc.symm)]

/-- `d.pop(key)` on the dict behind `r` leaves every other heap slot
untouched. -/
theorem popKeyRef_preserves (h : DictHeap) (r r' : ℕ) (k : String)
    (hne : r' ≠ r) (v : String) (h' : DictHeap)
    (hp : popKeyRef h r k = .ok (v, h')) : heapGet h' r' = heapGet h r' := by
  unfold popKeyRef at hp
  cases hl : lookupDict (heapGet h r) k with
  | none => rw [hl] at hp; cases hp
  | some w =>
      rw [hl] at hp
      injection hp with hp
      injection hp with hp1 hp2
      rw [← hp2]
      exact heapGet_set_ne h r r' _ hne

/-- C10: `pick_waveforms` never mutates the caller's `picking_args` dict:
the `picker`/`model` pops act on the deep copy, so after the call the
caller's dict object is unchanged and still holds every original key-value
pair, including `picker` and `model`. -/
theorem claim_C10_args_preserved (h : DictHeap) (argsRef : ℕ)
    (load fp : String → String → Except PyExc String)
    (units : List (ℕ × ℕ × String × String))
    (unitRun : String → ℕ × ℕ × String × String → Except PyExc (String × CsvFile))
    (sw : Bool) (hlt : argsRef < h.length) :
    heapGet (pick_waveforms h argsRef load fp units unitRun sw).heap argsRef =
        heapGet h argsRef ∧
      ∀ k, lookupDict
          (heapGet (pick_waveforms h argsRef load fp units unitRun sw).heap argsRef) k =
        lookupDict (heapGet h argsRef) k := by
  have hne : argsRef ≠ (deepcopy h argsRef).2 := by
    unfold deepcopy
    omega
  have happ : heapGet (deepcopy h argsRef).1 argsRef = heapGet h argsRef :=
    heapGet_append h _ argsRef hlt
  have hmain : heapGet (pick_waveforms h argsRef load fp units unitRun sw).heap argsRef =
      heapGet h argsRef := by
    simp only [pick_waveforms]
    cases hp1 : popKeyRef (deepcopy h argsRef).1 (deepcopy h argsRef).2 "picker" with
    | error e => exact happ
    | ok pr1 =>
        obtain ⟨pickerName, hh2⟩ := pr1
        have hpr1 : heapGet hh2 argsRef = heapGet h argsRef := by
          rw [popKeyRef_preserves (deepcopy h argsRef).1 (deepcopy h argsRef).2
            argsRef "picker" hne pickerName hh2 hp1]
          exact happ
        dsimp only
        cases hp2 : popKeyRef hh2 (deepcopy h argsRef).2 "model" with
        | error e => exact hpr1
        | ok pr2 =>
            obtain ⟨modelName, hh3⟩ := pr2
            have hpr2 : heapGet hh3 argsRef = heapGet h argsRef := by
              rw [popKeyRef_preserves hh2 (deepcopy h argsRef).2 argsRef "model"
                hne modelName hh3 hp2]
              exact hpr1
            dsimp only
            cases get_picker pickerName modelName load fp with
            | error e => exact hpr2
            | ok picker =>
                dsimp only
                cases units.mapM (unitRun picker) with
                | error e => exact hpr2
                | ok files =>
                    dsimp only
                    cases picks_postprocessing files sw with
                    | none => exact hpr2
                    | some out => exact hpr2
  exact ⟨hmain, fun k => by rw [hmain]⟩

/-- Witness for C10 at a one-dict heap holding `picker` and `model`. -/
theorem claim_C10_args_preserved_witness :
    0 < ([[("picker", "phasenet"), ("model", "m")]] : DictHeap).length ∧
      (heapGet (pick_waveforms [[("picker", "phasenet"), ("model", "m")]] 0
          (fun _ _ => .ok "L") (fun _ _ => .ok "R") [] (fun _ _ => .error (.other "x"))
          false).heap 0 =
        heapGet [[("picker", "phasenet"), ("model", "m")]] 0 ∧
      ∀ k, lookupDict (heapGet (pick_waveforms [[("picker", "phasenet"), ("model", "m")]] 0
          (fun _ _ => .ok "L") (fun _ _ => .ok "R") [] (fun _ _ => .error (.other "x"))
          false).heap 0) k =
        lookupDict (heapGet [[("picker", "phasenet"), ("model", "m")]] 0) k) :=
  ⟨by decide,
    claim_C10_args_preserved [[("picker", "phasenet"), ("model", "m")]] 0
      (fun _ _ => .ok "L") (fun _ _ => .ok "R") [] (fun _ _ => .error (.other "x"))
      false (by decide)⟩
